import Mathlib

/-!
Verification of the node-mssql-mcp-server repository against its
natural-language specification.

The development shallowly embeds the JavaScript source:

* `src/modules/tools.js`   — `isSafeQuery`, `executeSql`, `getTableSchema`,
  `listDatabases`
* `src/modules/resources.js` — `listResources`, `readResource` (CSV output)
* `src/db/connection.js`   — `getPool` and the self-evicting pool close
* `src/validation/index.js` — the zod schemas, as decidable predicates
* `src/server/index.js`    — the thin GET /resources handler

Strings are modelled over their character lists; character classes
(whitespace, upper-casing) are modelled for the ASCII range, which is the
range the specification's claims quantify over.
-/

namespace MssqlMcp

/-! ### Character classes and string helpers (ASCII model of JS semantics) -/

/-- ASCII whitespace, the ASCII fragment of the JavaScript regex class
`\s` and of the characters removed by `String.prototype.trim`. -/
def isWsChar (c : Char) : Bool :=
  c = ' ' || c = '\t' || c = '\n' || c = '\r' || c = '\x0b' || c = '\x0c'

/-- ASCII upper-casing, the ASCII fragment of `String.prototype.toUpperCase`. -/
def upChar (c : Char) : Char := c.toUpper

/-- `String.prototype.trim`: drop whitespace from both ends. -/
def trimChars (l : List Char) : List Char :=
  ((l.dropWhile isWsChar).reverse.dropWhile isWsChar).reverse

/-- The normalised query text `query.trim().toUpperCase()` that
`isSafeQuery` matches its deny patterns against. -/
def normQuery (q : String) : List Char :=
  (trimChars q.data).map upChar

/-- `tok` occurs at the head of `l`. -/
def tokHere : List Char → List Char → Bool
  | [], _ => true
  | _ :: _, [] => false
  | a :: as, b :: bs => a = b && tokHere as bs

/-- Some suffix of `l` satisfies `p` (unanchored regex search). -/
def anySuffix (p : List Char → Bool) : List Char → Bool
  | [] => p []
  | c :: cs => p (c :: cs) || anySuffix p cs

/-- Head of `l` exists and is whitespace (the regex fragment `\s+` at the
position where a non-whitespace token must follow later, or at end-of-use). -/
def headWs : List Char → Bool
  | [] => false
  | c :: _ => isWsChar c

/-- Deny pattern `\s*TOK\s+` of `isSafeQuery`: since `\s*` also matches the
empty string, the pattern matches iff `TOK` occurs somewhere followed
immediately by at least one whitespace character. -/
def kwWs (tok : List Char) (s : List Char) : Bool :=
  anySuffix (fun t => tokHere tok t && headWs (t.drop tok.length)) s

/-- Deny pattern `\s*TOK1\s+TOK2\s+` (ALTER ROLE, CREATE LOGIN, …):
`TOK1`, one or more whitespace, `TOK2`, one or more whitespace. -/
def kw2Ws (t1 t2 : List Char) (s : List Char) : Bool :=
  anySuffix (fun t =>
    tokHere t1 t &&
    (let r := (t.drop t1.length)
     headWs r &&
      (tokHere t2 (r.dropWhile isWsChar) &&
       headWs ((r.dropWhile isWsChar).drop t2.length)))) s

/-- Deny pattern `\s*TOK(\s+|\s*\()` (EXEC, EXECUTE): the token followed by
whitespace, or by optional whitespace and an opening parenthesis. -/
def execPat (tok : List Char) (s : List Char) : Bool :=
  anySuffix (fun t =>
    tokHere tok t &&
    (let r := (t.drop tok.length)
     headWs r || tokHere ['('] (r.dropWhile isWsChar))) s

/-- Deny pattern that is a bare substring match (`xp_cmdshell`,
`sp_configure`, `\s*RECONFIGURE\s*`): the token occurring anywhere. -/
def bareSub (tok : List Char) (s : List Char) : Bool :=
  anySuffix (tokHere tok) s

/-! ### The query safety classifier (`isSafeQuery` in src/modules/tools.js) -/

/-- The fixed deny patterns of `isSafeQuery`, in source order, each as a
matcher over the normalised (trimmed, upper-cased) query text.  The `/i`
flags are absorbed by the upper-casing, so tokens are written in capitals. -/
def basePatterns : List (List Char → Bool) :=
  [ kwWs "DROP".data
  , kwWs "TRUNCATE".data
  , kw2Ws "ALTER".data "ROLE".data
  , kw2Ws "CREATE".data "LOGIN".data
  , kw2Ws "ALTER".data "LOGIN".data
  , kw2Ws "CREATE".data "USER".data
  , kw2Ws "ALTER".data "USER".data
  , execPat "EXEC".data
  , execPat "EXECUTE".data
  , bareSub "XP_CMDSHELL".data
  , bareSub "SP_CONFIGURE".data
  , bareSub "RECONFIGURE".data
  , kwWs "GRANT".data
  , kwWs "REVOKE".data
  , kwWs "DENY".data ]

/-- The three extra deny patterns pushed when `IS_READONLY === "true"`. -/
def readOnlyPatterns : List (List Char → Bool) :=
  [ kwWs "INSERT".data
  , kwWs "UPDATE".data
  , kwWs "DELETE".data ]

/-- `isSafeQuery` from src/modules/tools.js.  `ro` is the process-wide
read-only flag (`process.env.IS_READONLY === "true"`).  Returns `false`
iff some deny pattern matches the trimmed, upper-cased query. -/
def isSafeQuery (ro : Bool) (q : String) : Bool :=
  !((basePatterns ++ (if ro then readOnlyPatterns else [])).any
      (fun m => m (normQuery q)))

example : isSafeQuery false "DROP TABLE foo" = false := by decide
example : isSafeQuery false "SELECT 1" = true := by decide
example : isSafeQuery false "DROP" = true := by decide
example : isSafeQuery true "INSERT INTO t VALUES (1)" = false := by decide
example : isSafeQuery false "INSERT INTO t VALUES (1)" = true := by decide
example : isSafeQuery false "  drop table x" = false := by decide
example : isSafeQuery false "EXEC(xp_cmdshell)" = false := by decide
example : isSafeQuery false "select reconfigurex" = false := by decide

/-! ### Input validation (src/validation/index.js, zod schemas)

Each zod field check becomes a decidable test; `validate` turning a zod
issue into `Error("Validation failed: <path>: <message>")` becomes an
`Except String` value.  The model reports the first failing rule's
message (zod may join several rule messages for one malformed input; the
claims only exercise inputs with a single failing rule). -/

/-- The character class `[a-zA-Z0-9_]` used by the table-name, db-key and
resource-URI regexes. -/
def isWordChar (c : Char) : Bool := c.isAlphanum || c = '_'

/-- Render a zod issue the way `validate` does. -/
def vMsg (path msg : String) : String :=
  "Validation failed: " ++ path ++ ": " ++ msg

/-- `dbKeySchema`: non-empty, at most 50 chars, word characters only. -/
def validateDbKeyOnly (k : String) : Except String Unit :=
  if k.data.length < 1 then .error (vMsg "dbKey" "Database key cannot be empty")
  else if k.data.length > 50 then .error (vMsg "dbKey" "Database key is too long")
  else if !(k.data.all isWordChar) then
    .error (vMsg "dbKey"
      "Database key can only contain alphanumeric characters and underscores")
  else .ok ()

/-- `sqlQuerySchema`: non-empty, at most 10000 chars. -/
def validateQueryField (q : String) : Except String Unit :=
  if q.data.length < 1 then .error (vMsg "query" "SQL query cannot be empty")
  else if q.data.length > 10000 then .error (vMsg "query" "SQL query is too long")
  else .ok ()

/-- `tableNameSchema`: non-empty, at most 128 chars, word characters only. -/
def validateTableField (t : String) : Except String Unit :=
  if t.data.length < 1 then .error (vMsg "table" "Table name cannot be empty")
  else if t.data.length > 128 then .error (vMsg "table" "Table name is too long")
  else if !(t.data.all isWordChar) then
    .error (vMsg "table"
      "Table name can only contain alphanumeric characters and underscores")
  else .ok ()

/-- Validation performed by `executeSql`: `dbKeyQuerySchema` when a dbKey
is supplied (dbKey field first, then query), else the query field only
(`partial` on dbKey). -/
def validateQueryInput (q : String) (k : Option String) : Except String Unit :=
  match k with
  | some key => do validateDbKeyOnly key; validateQueryField q
  | none => validateQueryField q

/-- Validation performed by `getTableSchema`: `dbKeyTableSchema` when a
dbKey is supplied, else the table field only. -/
def validateTableInput (t : String) (k : Option String) : Except String Unit :=
  match k with
  | some key => do validateDbKeyOnly key; validateTableField t
  | none => validateTableField t

/-! ### Data model: configurations, pools, recordsets -/

/-- The TLS options sub-object of a database configuration. -/
structure TlsOptions where
  encrypt : Bool
  trustServerCertificate : Bool
deriving Repr, DecidableEq

/-- A database configuration (`dbConfigSchema` shape), including the
secret password field. -/
structure DbConfig where
  server : String
  port : Option Nat
  user : String
  password : String
  database : String
  options : TlsOptions
deriving Repr, DecidableEq

/-- Modelled from the spec: the `ConnectionStatus` record of §3
(`src/config/dbConfig.js` is not part of the sources); one entry per
configured key with a state, an optional timestamp and an optional last
error message. -/
structure StatusEntry where
  databaseKey : String
  lastConnectedAt : Option Nat
  lastError : Option String
  state : String
deriving Repr, DecidableEq

/-- A cell of a driver recordset. -/
inductive CellValue where
  | null
  | str (s : String)
  | num (n : Int)
deriving Repr, DecidableEq

/-- A recordset row: field name / value pairs in column order. -/
def Row : Type := List (String × CellValue)

/-- A driver query result: the affected-count list and the recordset. -/
structure QueryRes where
  rowsAffected : List Nat
  recordset : List Row

/-- JavaScript-object key lookup on an insertion-ordered binding list. -/
def alookup {β : Type} (k : String) : List (String × β) → Option β
  | [] => none
  | e :: rest => if e.1 = k then some e.2 else alookup k rest

/-- The abstract database driver: connection outcome per config, and the
result of running one SQL text (with named parameters) on a pool. -/
structure Env where
  dbConfigs : List (String × DbConfig)
  connect : DbConfig → Except String Unit
  runSql : Nat → String → List (String × String) → Except String QueryRes

/-- A resource listing entry produced by `listResources`. -/
structure Resource where
  uri : String
  name : String
  description : String
  mimeType : String
deriving Repr, DecidableEq

/-- Process-wide mutable state: the pool cache (`pools` in
src/db/connection.js, pools named by key and identified by creation
number), the fresh-pool counter, the resource cache of
src/modules/resources.js, and the ConnectionStatus map (which no code
under verification writes). -/
structure St where
  pools : List (String × Nat)
  next : Nat
  resourceCache : List (String × List Resource)
  status : List StatusEntry

/-! ### The connection pool cache (src/db/connection.js) -/

/-- `dbKey || "default"`, the cache key used for the pool map. -/
def poolKeyOf (k : Option String) : String := k.getD "default"

/-- `dbConfigs[dbKey] || Object.values(dbConfigs)[0]`: the requested
config when the key is known, otherwise the first configured one. -/
def resolveConfig (env : Env) (k : Option String) : Option DbConfig :=
  match k with
  | some key =>
      (match alookup key env.dbConfigs with
       | some c => some c
       | none => env.dbConfigs.head?.map (fun e => e.2))
  | none => env.dbConfigs.head?.map (fun e => e.2)

/-- `getPool` from src/db/connection.js.  Resolves a config (falling back
to the first configured database), fails when none exists, returns the
cached pool for `dbKey || "default"` when present, and otherwise creates
a fresh pool (identified by the counter), connects it, and caches it only
on connect success.  Never touches `St.status`. -/
def getPool (env : Env) (k : Option String) (st : St) : Except String Nat × St :=
  match resolveConfig env k with
  | none => (.error "No database configuration found.", st)
  | some cfg =>
    match alookup (poolKeyOf k) st.pools with
    | some pid => (.ok pid, st)
    | none =>
      match env.connect cfg with
      | .error e => (.error e, { st with next := st.next + 1 })
      | .ok _ => (.ok st.next,
          { st with pools := st.pools ++ [(poolKeyOf k, st.next)],
                    next := st.next + 1 })

/-- The override installed on every created pool: `pool.close` first
deletes the pool's own cache entry (`delete pools[poolKey]`) and only
then invokes the underlying driver close. -/
def closePool (pk : String) (st : St) : St :=
  { st with pools := st.pools.filter (fun e => !(e.1 = pk)) }

/-! ### Tool responses and the tool operations (src/modules/tools.js) -/

/-- The single content item of a tool response: either the JSON-encoded
success body or the JSON-encoded `\x7berror: message\x7d` envelope. -/
inductive ToolOut (α : Type) where
  | ok (body : α)
  | err (msg : String)
deriving Repr

/-- A tool response: the content item plus the `isError` flag. -/
structure ToolResponse (α : Type) where
  out : ToolOut α
  isError : Bool
deriving Repr

/-- Success body of `executeSql`: message, `result.rowsAffected[0]`, and
the recordset. -/
structure ExecBody where
  message : String
  rowsAffected : Option Nat
  recordset : List Row

/-- Success body of `getTableSchema`. -/
structure SchemaBody where
  table : String
  columns : List Row

/-- The fixed text of the security-block error returned by `executeSql`. -/
def blockedMsg : String :=
  "Query contains potentially unsafe operations and was blocked for security"

/-- `executeSql` from src/modules/tools.js.  `ro` is the process-wide
read-only flag.  The second component of the result records whether pool
acquisition (`getPool`) was reached, `false` meaning the call
short-circuited before touching the connection layer. -/
def executeSql (env : Env) (ro : Bool) (q : String) (k : Option String)
    (st : St) : (ToolResponse ExecBody × Bool) × St :=
  match validateQueryInput q k with
  | .error m => ((⟨.err m, true⟩, false), st)
  | .ok _ =>
    if !(isSafeQuery ro q) then ((⟨.err blockedMsg, true⟩, false), st)
    else
      match getPool env k st with
      | (.error e, st2) => ((⟨.err e, true⟩, true), st2)
      | (.ok pid, st2) =>
        match env.runSql pid q [] with
        | .error e => ((⟨.err e, true⟩, true), st2)
        | .ok r => ((⟨.ok ⟨"Query executed successfully",
            r.rowsAffected.head?, r.recordset⟩, false⟩, true), st2)

/-- The column-metadata SQL text issued by `getTableSchema`. -/
def schemaSqlText : String :=
  "\n        SELECT COLUMN_NAME, DATA_TYPE, CHARACTER_MAXIMUM_LENGTH\n        FROM INFORMATION_SCHEMA.COLUMNS\n        WHERE TABLE_NAME = @tableName\n        ORDER BY ORDINAL_POSITION\n      "

/-- A single-quote as a string, for building the source's quoted messages. -/
def sq : String := String.singleton (Char.ofNat 39)

/-- The not-found message thrown (and then enveloped) by `getTableSchema`
when the column query returns zero rows. -/
def notFoundMsg (t : String) : String :=
  "Table " ++ sq ++ t ++ sq ++ " not found or has no columns"

/-- `getTableSchema` from src/modules/tools.js: validate, acquire a pool,
run the parameterised column-metadata query, report not-found on an
empty recordset, and wrap every failure in an `isError` envelope. -/
def getTableSchema (env : Env) (t : String) (k : Option String)
    (st : St) : ToolResponse SchemaBody × St :=
  match validateTableInput t k with
  | .error m => (⟨.err m, true⟩, st)
  | .ok _ =>
    match getPool env k st with
    | (.error e, st2) => (⟨.err e, true⟩, st2)
    | (.ok pid, st2) =>
      match env.runSql pid schemaSqlText [("tableName", t)] with
      | .error e => (⟨.err e, true⟩, st2)
      | .ok r =>
        if r.recordset.length = 0 then (⟨.err (notFoundMsg t), true⟩, st2)
        else (⟨.ok ⟨t, r.recordset⟩, false⟩, st2)

/-- A sanitized configuration as built by `listDatabases`: the password
field has no counterpart here. -/
structure SanitizedConfig where
  server : String
  port : Nat
  database : String
  user : String
  options : TlsOptions
deriving Repr, DecidableEq

/-- Success body of `listDatabases`. -/
structure ListDbBody where
  availableDatabases : List String
  configurations : List (String × SanitizedConfig)
  connectionStatus : List StatusEntry
  count : Nat
  defaultDatabase : Option String

/-- The per-config sanitisation of `listDatabases`; `config.port || 1433`
yields 1433 both for an absent port and for port 0. -/
def sanitizeConfig (c : DbConfig) : SanitizedConfig :=
  { server := c.server
  , port := match c.port with
            | none => 1433
            | some p => if p = 0 then 1433 else p
  , database := c.database
  , user := c.user
  , options := ⟨c.options.encrypt, c.options.trustServerCertificate⟩ }

/-- `listDatabases` from src/modules/tools.js, over the configured
mapping and the `getConnectionStatus()` result (only the latter is
modelled from the spec, the module holding it being outside the sources).
The body is pure, so the catch branch is unreachable and `isError` is
always `false`. -/
def listDatabases (configs : List (String × DbConfig))
    (status : List StatusEntry) : ToolResponse ListDbBody :=
  ⟨.ok
    { availableDatabases := configs.map (fun e => e.1)
    , configurations := configs.map (fun e => (e.1, sanitizeConfig e.2))
    , connectionStatus := status
    , count := configs.length
    , defaultDatabase := (configs.map (fun e => e.1)).head? }, false⟩

/-- Every string occurring in a `listDatabases` success body. -/
def listDbStrings (b : ListDbBody) : List String :=
  b.availableDatabases ++
  b.configurations.flatMap (fun e => [e.1, e.2.server, e.2.database, e.2.user]) ++
  b.connectionStatus.flatMap (fun s =>
    [s.databaseKey, s.state] ++ (match s.lastError with
                                 | some e => [e]
                                 | none => [])) ++
  (match b.defaultDatabase with
   | some d => [d]
   | none => [])

/-- The non-secret strings of the configured mapping: keys, servers,
database names and user names — everything `listDatabases` copies. -/
def configPublicStrings (configs : List (String × DbConfig)) : List String :=
  configs.flatMap (fun e => [e.1, e.2.server, e.2.database, e.2.user])

/-- The strings of the `getConnectionStatus()` result. -/
def statusStrings (status : List StatusEntry) : List String :=
  status.flatMap (fun s =>
    [s.databaseKey, s.state] ++ (match s.lastError with
                                 | some e => [e]
                                 | none => []))

/-! ### Resources (src/modules/resources.js): table listing and CSV reads -/

/-- The base-table catalog SQL text issued by `listResources`. -/
def listTablesSqlText : String :=
  "\n      SELECT TABLE_NAME\n      FROM INFORMATION_SCHEMA.TABLES\n      WHERE TABLE_TYPE = \x27BASE TABLE\x27\n    "

/-- How a cell renders inside a JS template literal (`row.TABLE_NAME`). -/
def cellText : Option CellValue → String
  | some (.str s) => s
  | some (.num n) => toString n
  | some .null => "null"
  | none => "undefined"

/-- The `TABLE_NAME` field of a catalog row. -/
def rowTableName (r : Row) : String := cellText (alookup "TABLE_NAME" r)

/-- The resource built for one table name. -/
def mkResource (t : String) : Resource :=
  { uri := "mssql://" ++ t ++ "/data"
  , name := "Table: " ++ t
  , description := "Data in table: " ++ t
  , mimeType := "text/plain" }

/-- `listResources` from src/modules/resources.js: serve from the
resource cache when present, otherwise validate the key, acquire a pool
and query the catalog — and on ANY failure catch it and return the empty
list (the catch branch logs and returns `[]`, it does not re-throw).
The timed cache expiry is outside the model; entries are only added. -/
def listResources (env : Env) (k : Option String) (st : St) :
    List Resource × St :=
  match alookup (poolKeyOf k) st.resourceCache with
  | some rs => (rs, st)
  | none =>
    match (match k with
           | some key => validateDbKeyOnly key
           | none => .ok ()) with
    | .error _ => ([], st)
    | .ok _ =>
      match getPool env k st with
      | (.error _, st2) => ([], st2)
      | (.ok pid, st2) =>
        match env.runSql pid listTablesSqlText [] with
        | .error _ => ([], st2)
        | .ok r =>
          (r.recordset.map (fun row => mkResource (rowTableName row)),
           { st2 with resourceCache := st2.resourceCache ++
              [(poolKeyOf k,
                r.recordset.map (fun row => mkResource (rowTableName row)))] })

/-- The body of a GET /resources HTTP reply. -/
inductive ResourcesHttpBody where
  | list (rs : List Resource)
  | errMsg (msg : String)
deriving Repr

/-- The GET /resources route of src/server/index.js behind the
`validateDbKey` middleware: status code and body.  An invalid dbKey is
rejected with 400 by the middleware; otherwise the handler awaits
`listResources` (which never throws) and replies 200 with its value. -/
def getResourcesHttp (env : Env) (k : Option String) (st : St) :
    (Nat × ResourcesHttpBody) × St :=
  match k with
  | some key =>
    (match validateDbKeyOnly key with
     | .error m => ((400, .errMsg m), st)
     | .ok _ =>
       let p := listResources env k st
       ((200, .list p.1), p.2))
  | none =>
    let p := listResources env k st
    ((200, .list p.1), p.2)

/-- The anchored resource-URI regex
`^mssql:\/\/[a-zA-Z0-9_]+\/data$` of `resourceUriSchema`, by maximal
munch (sound here because `/` is not a word character). -/
def uriRegexOk (u : String) : Bool :=
  let l := u.data
  tokHere "mssql://".data l &&
  (let r := l.drop 8
   let mid := r.takeWhile isWordChar
   !mid.isEmpty && decide (r.drop mid.length = "/data".data))

/-- The zod issue message produced for a malformed resource URI (the
schema is a bare string schema, so the issue path is empty). -/
def uriErrMsg : String :=
  vMsg "" "URI must match the pattern mssql://<table_name>/data"

/-- `validUri.slice(8).split("/")[0]`: the table-name segment of the URI. -/
def extractTable (u : String) : String :=
  String.mk ((u.data.drop 8).takeWhile (fun c => !(c = '/')))

/-- Does a string field need RFC4180 quoting (comma, quote or newline)? -/
def needsQuote (s : String) : Bool :=
  s.data.any (fun c => c = ',' || c = '"' || c = '\n')

/-- `value.replace(/"/g, c)` with doubled quotes. -/
def escQuotes (l : List Char) : List Char :=
  l.flatMap (fun c => if c = '"' then ['"', '"'] else [c])

/-- Serialisation of one defined cell value in `readResource`. -/
def csvField : CellValue → String
  | .null => ""
  | .str s =>
      if needsQuote s then "\"" ++ String.mk (escQuotes s.data) ++ "\""
      else s
  | .num n => toString n

/-- Serialisation of a possibly-missing cell (`row[col]`); `undefined`
renders as the empty field just like `null`. -/
def csvCell : Option CellValue → String
  | none => ""
  | some v => csvField v

/-- One CSV data row: each selected column's cell, comma-joined. -/
def csvRow (cols : List String) (r : Row) : String :=
  String.intercalate "," (cols.map (fun c => csvCell (alookup c r)))

/-- The CSV text built by `readResource`: the header row of the first
record's keys, then one row per record, newline-joined. -/
def csvText (rs : List Row) : String :=
  let cols := match rs.head? with
              | some r => r.map (fun e => e.1)
              | none => []
  String.intercalate "\n" (String.intercalate "," cols :: rs.map (csvRow cols))

/-- `readResource` from src/modules/resources.js.  Returns the CSV text
or the wrapped error, together with the list of SQL texts issued to the
driver (empty when execution was never reached). -/
def readResource (env : Env) (u : String) (k : Option String) (st : St) :
    (Except String String × List String) × St :=
  if !(uriRegexOk u) then ((.error ("Database error: " ++ uriErrMsg), []), st)
  else
    match (match k with
           | some key => validateDbKeyOnly key
           | none => .ok ()) with
    | .error m => ((.error ("Database error: " ++ m), []), st)
    | .ok _ =>
      if !(tokHere "mssql://".data u.data) then
        ((.error ("Database error: Invalid URI scheme: " ++ u), []), st)
      else
        match getPool env k st with
        | (.error e, st2) => ((.error ("Database error: " ++ e), []), st2)
        | (.ok pid, st2) =>
          match env.runSql pid
              ("SELECT TOP 100 * FROM [" ++ extractTable u ++ "]") [] with
          | .error e =>
              ((.error ("Database error: " ++ e),
                ["SELECT TOP 100 * FROM [" ++ extractTable u ++ "]"]), st2)
          | .ok r => ((.ok (csvText r.recordset),
                ["SELECT TOP 100 * FROM [" ++ extractTable u ++ "]"]), st2)

/-! ### RFC4180 field parsing (the spec side of the round-trip claim) -/

/-- Modelled from the spec: RFC4180 parsing of the remainder of a quoted
field — a doubled quote is an escaped quote, a lone quote closes the
field and must end the input for a single field. -/
def unquoteCsv : List Char → Option (List Char)
  | [] => none
  | c :: t =>
    if c = '"' then
      match t with
      | [] => some []
      | c2 :: t2 =>
        if c2 = '"' then (unquoteCsv t2).map (fun r => '"' :: r)
        else none
    else (unquoteCsv t).map (fun r => c :: r)

/-- Modelled from the spec: RFC4180 parsing of one complete quoted field. -/
def rfc4180ParseField (s : String) : Option String :=
  match s.data with
  | c :: t => if c = '"' then (unquoteCsv t).map String.mk else none
  | [] => none

example : csvField (.str "a,\"b\"\nc") = "\"a,\"\"b\"\"\nc\"" := by decide
example : rfc4180ParseField "\"a,\"\"b\"\"\nc\"" = some "a,\"b\"\nc" := by decide
example : csvCell none = "" := by decide
example : uriRegexOk "mssql://Users/data" = true := by decide
example : uriRegexOk "mssql://Us ers/data" = false := by decide
example : extractTable "mssql://Users/data" = "Users" := by decide

/-! ### Token vocabulary for the classifier claims -/

/-- The deny-list vocabulary: the leading keyword of every base deny
pattern (`EXECUTE` is covered by its prefix `EXEC`; the two-keyword
patterns by their leading `ALTER`/`CREATE`). -/
def baseTokenStrings : List String :=
  ["DROP", "TRUNCATE", "ALTER", "CREATE", "EXEC",
   "XP_CMDSHELL", "SP_CONFIGURE", "RECONFIGURE", "GRANT", "REVOKE", "DENY"]

/-- The query text is free of every base deny token, as a substring of
the normalised query. -/
def tokenFreeBase (q : String) : Bool :=
  baseTokenStrings.all (fun t => !(bareSub t.data (normQuery q)))

/-- The query text is free of the read-only deny tokens INSERT, UPDATE,
DELETE. -/
def dmlFree (q : String) : Bool :=
  (["INSERT", "UPDATE", "DELETE"] : List String).all
    (fun t => !(bareSub t.data (normQuery q)))

/-- Some read-only deny pattern (INSERT, UPDATE or DELETE followed by
whitespace) matches the normalised query. -/
def dmlKwWsHit (q : String) : Prop :=
  kwWs "INSERT".data (normQuery q) = true ∨
  kwWs "UPDATE".data (normQuery q) = true ∨
  kwWs "DELETE".data (normQuery q) = true

/-! ### Fixtures: concrete configurations, environments and states -/

/-- A concrete main configuration (password `hunter2`). -/
def cfgMain : DbConfig :=
  { server := "srv1", port := some 1433, user := "sa", password := "hunter2"
  , database := "AppDb", options := ⟨true, false⟩ }

/-- A concrete reporting configuration (password `s3cret`). -/
def cfgRep : DbConfig :=
  { server := "srv2", port := none, user := "ro_user", password := "s3cret"
  , database := "RepDb", options := ⟨true, true⟩ }

/-- One configured database; connections and queries succeed. -/
def envOk : Env :=
  { dbConfigs := [("maindb", cfgMain)]
  , connect := fun _ => .ok ()
  , runSql := fun _ _ _ => .ok ⟨[1], []⟩ }

/-- One configured database; every connection attempt fails. -/
def envConnFail : Env :=
  { dbConfigs := [("maindb", cfgMain)]
  , connect := fun _ => .error "Connection error"
  , runSql := fun _ _ _ => .error "unreachable" }

/-- One configured database; connections succeed, every query fails. -/
def envQueryFail : Env :=
  { dbConfigs := [("maindb", cfgMain)]
  , connect := fun _ => .ok ()
  , runSql := fun _ _ _ => .error "Invalid object name" }

/-- One configured database; queries succeed with an empty recordset. -/
def envEmptyRecordset : Env :=
  { dbConfigs := [("maindb", cfgMain)]
  , connect := fun _ => .ok ()
  , runSql := fun _ _ _ => .ok ⟨[0], []⟩ }

/-- The initial process state: no pools, no caches, fresh counter 0. -/
def st0 : St := ⟨[], 0, [], []⟩

/-- The two-database configuration of the multi-db scenario. -/
def cfgs2 : List (String × DbConfig) := [("maindb", cfgMain), ("reportingdb", cfgRep)]

/-- A concrete `getConnectionStatus()` result for the two keys. -/
def sts2 : List StatusEntry :=
  [⟨"maindb", some 100, none, "connected"⟩,
   ⟨"reportingdb", none, some "timeout", "error"⟩]

/-- No configured database at all. -/
def envNone : Env :=
  { dbConfigs := []
  , connect := fun _ => .ok ()
  , runSql := fun _ _ _ => .ok ⟨[1], []⟩ }

/-- The state after a first successful default acquire from `st0`. -/
def stA : St := ⟨[("default", 0)], 1, [], []⟩

/-- The freshness invariant of the pool cache: every cached pool
identifier was produced by the counter. -/
def wfSt (st : St) : Prop := ∀ e ∈ st.pools, e.2 < st.next

/-! ### Classifier lemmas -/

lemma anySuffix_imp {p q : List Char → Bool} (h : ∀ t, p t = true → q t = true) :
    ∀ s, anySuffix p s = true → anySuffix q s = true := by
  intro s
  induction s with
  | nil => simpa [anySuffix] using h []
  | cons c cs ih =>
      simp only [anySuffix, Bool.or_eq_true]
      rintro (h1 | h2)
      · exact Or.inl (h _ h1)
      · exact Or.inr (ih h2)

lemma tokHere_prefix {t1 t2 : List Char} :
    ∀ {l : List Char}, tokHere (t1 ++ t2) l = true → tokHere t1 l = true := by
  induction t1 with
  | nil => intro l _; simp [tokHere]
  | cons a as ih =>
      intro l
      cases l with
      | nil => simp [tokHere]
      | cons b bs =>
          simp only [List.cons_append, tokHere, Bool.and_eq_true]
          rintro ⟨hab, h⟩
          exact ⟨hab, ih h⟩

lemma kwWs_sub {tok s : List Char} (h : kwWs tok s = true) : bareSub tok s = true :=
  anySuffix_imp (fun _ ht => by
    simp only [Bool.and_eq_true] at ht
    exact ht.1) s h

lemma kw2Ws_sub {t1 t2 s : List Char} (h : kw2Ws t1 t2 s = true) :
    bareSub t1 s = true :=
  anySuffix_imp (fun _ ht => by
    simp only [Bool.and_eq_true] at ht
    exact ht.1) s h

lemma execPat_sub {tok s : List Char} (h : execPat tok s = true) :
    bareSub tok s = true :=
  anySuffix_imp (fun _ ht => by
    simp only [Bool.and_eq_true] at ht
    exact ht.1) s h

lemma bareSub_prefix {t1 t2 s : List Char} (h : bareSub (t1 ++ t2) s = true) :
    bareSub t1 s = true :=
  anySuffix_imp (fun _ ht => tokHere_prefix ht) s h

lemma imp_false_of {a b : Bool} (h : a = true → b = true) (hb : b = false) :
    a = false := by
  cases ha : a
  · rfl
  · exact absurd (h ha) (by simp [hb])

/-- If none of the base deny tokens occurs in the normalised query, none
of the base deny patterns matches it. -/
lemma basePatterns_all_false {n : List Char}
    (h : ∀ t ∈ baseTokenStrings, bareSub t.data n = false) :
    (basePatterns.any fun m => m n) = false := by
  have hD := h "DROP" (by simp [baseTokenStrings])
  have hT := h "TRUNCATE" (by simp [baseTokenStrings])
  have hA := h "ALTER" (by simp [baseTokenStrings])
  have hC := h "CREATE" (by simp [baseTokenStrings])
  have hE := h "EXEC" (by simp [baseTokenStrings])
  have hX := h "XP_CMDSHELL" (by simp [baseTokenStrings])
  have hS := h "SP_CONFIGURE" (by simp [baseTokenStrings])
  have hR := h "RECONFIGURE" (by simp [baseTokenStrings])
  have hG := h "GRANT" (by simp [baseTokenStrings])
  have hV := h "REVOKE" (by simp [baseTokenStrings])
  have hY := h "DENY" (by simp [baseTokenStrings])
  have hEU : bareSub "EXECUTE".data n = false := by
    refine imp_false_of (fun hx => ?_) hE
    have : ("EXECUTE".data : List Char) = "EXEC".data ++ "UTE".data := by decide
    exact bareSub_prefix (this ▸ hx)
  simp only [basePatterns, List.any_cons, List.any_nil, Bool.or_eq_false_iff]
  refine ⟨imp_false_of kwWs_sub hD, imp_false_of kwWs_sub hT,
    imp_false_of kw2Ws_sub hA, imp_false_of kw2Ws_sub hC,
    imp_false_of kw2Ws_sub hA, imp_false_of kw2Ws_sub hC,
    imp_false_of kw2Ws_sub hA, imp_false_of execPat_sub hE,
    imp_false_of execPat_sub hEU, imp_false_of id hX,
    imp_false_of id hS, imp_false_of id hR,
    imp_false_of kwWs_sub hG, imp_false_of kwWs_sub hV,
    imp_false_of kwWs_sub hY, trivial⟩

/-- Claim C3, as frozen, is false on the code: the single-word query
`DROP` contains the denied token `DROP` (here: as a substring of the
normalised query), yet `isSafeQuery` deems it safe under both read-only
modes, because the deny pattern demands a whitespace character after the
keyword. -/
theorem C3_counterexample :
    bareSub "DROP".data (normQuery "DROP") = true ∧
    isSafeQuery false "DROP" = true ∧
    isSafeQuery true "DROP" = true := by decide

/-- Claim C3 (corrected): for every query on which one of the listed
base deny patterns matches the trimmed upper-cased text — the keyword
followed by whitespace, EXEC/EXECUTE followed by whitespace or an
opening parenthesis, xp_cmdshell / sp_configure / RECONFIGURE as bare
substrings — `isSafeQuery` returns false, for both values of the
read-only flag; the characters before the token are irrelevant. -/
theorem C3_amended (q : String) (ro : Bool)
    (h : ∃ m ∈ basePatterns, m (normQuery q) = true) :
    isSafeQuery ro q = false := by
  rcases h with ⟨m, hm, hq⟩
  have hall : ((basePatterns ++ (if ro then readOnlyPatterns else [])).any
      (fun m => m (normQuery q))) = true :=
    List.any_eq_true.mpr ⟨m, List.mem_append_left _ hm, hq⟩
  simp [isSafeQuery, hall]

theorem C3_amended_witness :
    isSafeQuery false "x;DROP TABLE users" = false ∧
    isSafeQuery true "x;DROP TABLE users" = false :=
  ⟨C3_amended _ _ ⟨kwWs "DROP".data, by simp [basePatterns], by decide⟩,
   C3_amended _ _ ⟨kwWs "DROP".data, by simp [basePatterns], by decide⟩⟩

/-- Claim C4, as frozen, is false on the code: in read-only mode the
single-word query `INSERT` contains the token INSERT yet is classified
safe, because the pushed deny pattern also demands whitespace after the
keyword. -/
theorem C4_counterexample :
    bareSub "INSERT".data (normQuery "INSERT") = true ∧
    isSafeQuery true "INSERT" = true := by decide

/-- Claim C4 (corrected): queries free of every base deny token are safe
with the read-only flag off; with it on they additionally stay safe when
free of INSERT/UPDATE/DELETE, while queries where INSERT, UPDATE or
DELETE occurs followed by a whitespace character are classified unsafe. -/
theorem C4_amended (q : String) :
    (tokenFreeBase q = true → isSafeQuery false q = true) ∧
    (tokenFreeBase q = true → dmlFree q = true → isSafeQuery true q = true) ∧
    (dmlKwWsHit q → isSafeQuery true q = false) := by
  refine ⟨?_, ?_, ?_⟩
  · intro h
    have hfree : ∀ t ∈ baseTokenStrings, bareSub t.data (normQuery q) = false := by
      intro t ht
      simpa using List.all_eq_true.mp h t ht
    have hbase := basePatterns_all_false hfree
    simp [isSafeQuery, List.any_append, hbase]
  · intro h hd
    have hfree : ∀ t ∈ baseTokenStrings, bareSub t.data (normQuery q) = false := by
      intro t ht
      simpa using List.all_eq_true.mp h t ht
    have hI : bareSub "INSERT".data (normQuery q) = false := by
      simpa using List.all_eq_true.mp hd "INSERT" (by simp)
    have hU : bareSub "UPDATE".data (normQuery q) = false := by
      simpa using List.all_eq_true.mp hd "UPDATE" (by simp)
    have hD2 : bareSub "DELETE".data (normQuery q) = false := by
      simpa using List.all_eq_true.mp hd "DELETE" (by simp)
    have hbase := basePatterns_all_false hfree
    have hro : (readOnlyPatterns.any fun m => m (normQuery q)) = false := by
      simp only [readOnlyPatterns, List.any_cons, List.any_nil,
        Bool.or_eq_false_iff]
      exact ⟨imp_false_of kwWs_sub hI, imp_false_of kwWs_sub hU,
        imp_false_of kwWs_sub hD2, trivial⟩
    simp [isSafeQuery, List.any_append, hbase, hro]
  · intro h
    have hall : ((basePatterns ++ readOnlyPatterns).any
        (fun m => m (normQuery q))) = true := by
      rcases h with h | h | h
      · exact List.any_eq_true.mpr
          ⟨kwWs "INSERT".data,
           List.mem_append_right _ (by simp [readOnlyPatterns]), h⟩
      · exact List.any_eq_true.mpr
          ⟨kwWs "UPDATE".data,
           List.mem_append_right _ (by simp [readOnlyPatterns]), h⟩
      · exact List.any_eq_true.mpr
          ⟨kwWs "DELETE".data,
           List.mem_append_right _ (by simp [readOnlyPatterns]), h⟩
    simp [isSafeQuery, hall]

theorem C4_amended_witness :
    isSafeQuery false "SELECT name FROM users WHERE id = 1" = true ∧
    isSafeQuery true "SELECT name FROM users WHERE id = 1" = true ∧
    isSafeQuery true "INSERT INTO t VALUES (1)" = false :=
  ⟨(C4_amended _).1 (by decide),
   (C4_amended _).2.1 (by decide) (by decide),
   (C4_amended _).2.2 (Or.inl (by decide))⟩

/-! ### Pool-cache lemmas -/

lemma alookup_append_of_none {β : Type} {k : String} {l1 : List (String × β)}
    (h : alookup k l1 = none) (l2 : List (String × β)) :
    alookup k (l1 ++ l2) = alookup k l2 := by
  induction l1 with
  | nil => rfl
  | cons e es ih =>
      by_cases hek : e.1 = k
      · simp [alookup, hek] at h
      · simp only [alookup, hek, if_false, List.cons_append] at h ⊢
        exact ih h

lemma alookup_single_self {β : Type} (k : String) (v : β) :
    alookup k [(k, v)] = some v := by simp [alookup]

lemma alookup_filter_self {β : Type} (k : String) (l : List (String × β)) :
    alookup k (l.filter fun e => !(e.1 = k)) = none := by
  induction l with
  | nil => rfl
  | cons e es ih =>
      by_cases hek : e.1 = k
      · simpa [List.filter_cons, hek] using ih
      · simpa [List.filter_cons, hek, alookup] using ih

lemma alookup_some_ex {β : Type} {k : String} {l : List (String × β)} {v : β}
    (h : alookup k l = some v) : ∃ e ∈ l, e.2 = v := by
  induction l with
  | nil => cases h
  | cons e es ih =>
      by_cases hek : e.1 = k
      · simp only [alookup, hek, if_true, Option.some.injEq] at h
        exact ⟨e, List.mem_cons_self .., h⟩
      · simp only [alookup, hek, if_false] at h
        obtain ⟨e2, he2, hv⟩ := ih h
        exact ⟨e2, List.mem_cons_of_mem _ he2, hv⟩

lemma getPool_status (env : Env) (k : Option String) (st : St) :
    ((getPool env k st).2).status = st.status := by
  unfold getPool
  cases hr : resolveConfig env k with
  | none => rfl
  | some cfg =>
    dsimp only
    cases hl : alookup (poolKeyOf k) st.pools with
    | some pid => rfl
    | none =>
      dsimp only
      cases hc : env.connect cfg with
      | error e => rfl
      | ok u => rfl

lemma getPool_hit {env : Env} {k : Option String} {st : St} {cfg : DbConfig}
    {p : Nat} (hr : resolveConfig env k = some cfg)
    (hl : alookup (poolKeyOf k) st.pools = some p) :
    getPool env k st = (.ok p, st) := by
  unfold getPool
  rw [hr]
  dsimp only
  rw [hl]

lemma getPool_miss_ok {env : Env} {k : Option String} {st : St} {cfg : DbConfig}
    (hr : resolveConfig env k = some cfg)
    (hl : alookup (poolKeyOf k) st.pools = none)
    (hc : env.connect cfg = .ok ()) :
    getPool env k st = (.ok st.next,
      { st with pools := st.pools ++ [(poolKeyOf k, st.next)],
                next := st.next + 1 }) := by
  unfold getPool
  rw [hr]
  dsimp only
  rw [hl]
  dsimp only
  rw [hc]

lemma getPool_ok_inv {env : Env} {k : Option String} {st : St} {p : Nat}
    {st1 : St} (h : getPool env k st = (.ok p, st1)) :
    ∃ cfg, resolveConfig env k = some cfg ∧
      ((alookup (poolKeyOf k) st.pools = some p ∧ st1 = st) ∨
       (alookup (poolKeyOf k) st.pools = none ∧ env.connect cfg = .ok () ∧
        p = st.next ∧
        st1 = { st with pools := st.pools ++ [(poolKeyOf k, p)],
                        next := p + 1 })) := by
  unfold getPool at h
  cases hr : resolveConfig env k with
  | none => rw [hr] at h; simp at h
  | some cfg =>
    rw [hr] at h
    dsimp only at h
    refine ⟨cfg, rfl, ?_⟩
    cases hl : alookup (poolKeyOf k) st.pools with
    | some pid =>
        rw [hl] at h
        dsimp only at h
        simp only [Prod.mk.injEq, Except.ok.injEq] at h
        exact Or.inl ⟨by rw [h.1], h.2.symm⟩
    | none =>
        rw [hl] at h
        dsimp only at h
        cases hc : env.connect cfg with
        | error e => rw [hc] at h; simp at h
        | ok u =>
            rw [hc] at h
            dsimp only at h
            simp only [Prod.mk.injEq, Except.ok.injEq] at h
            refine Or.inr ⟨rfl, by cases u; rfl, h.1.symm, ?_⟩
            rw [← h.2, h.1]

lemma getPool_wf {env : Env} {k : Option String} {st : St} (hw : wfSt st) :
    wfSt (getPool env k st).2 := by
  unfold getPool
  cases hr : resolveConfig env k with
  | none => exact hw
  | some cfg =>
    dsimp only
    cases hl : alookup (poolKeyOf k) st.pools with
    | some pid => exact hw
    | none =>
      dsimp only
      cases hc : env.connect cfg with
      | error e =>
          intro e2 he2
          exact Nat.lt_succ_of_lt (hw e2 he2)
      | ok u =>
          intro e2 he2
          rcases List.mem_append.mp he2 with h2 | h2
          · exact Nat.lt_succ_of_lt (hw e2 h2)
          · rcases List.mem_singleton.mp h2 with rfl
            exact Nat.lt_succ_self _

/-- Claim C1, as frozen, is false on the code: with one database
configured, `getPool` for the unknown key `ghost` does not fail with the
ConfigError — it falls back to the first configured database and returns
pool 0. -/
theorem C1_counterexample :
    envOk.dbConfigs ≠ [] ∧
    alookup "ghost" envOk.dbConfigs = none ∧
    (getPool envOk (some "ghost") st0).1 = .ok 0 :=
  ⟨by decide, rfl, rfl⟩

/-- Claim C1 (corrected): for an unknown database key, `getPool` fails
with the no-configuration error exactly when no database is configured
at all; when at least one is configured it falls back to the first
configured database's settings and (connects succeeding) returns a pool;
and it never mutates the ConnectionStatus of any key. -/
theorem C1_amended (env : Env) (k : String) (st : St)
    (hk : alookup k env.dbConfigs = none) :
    (env.dbConfigs = [] →
      getPool env (some k) st =
        (.error "No database configuration found.", st)) ∧
    (env.dbConfigs ≠ [] → (∀ c, env.connect c = .ok ()) →
      ∃ p, (getPool env (some k) st).1 = .ok p) ∧
    ((getPool env (some k) st).2).status = st.status := by
  refine ⟨?_, ?_, getPool_status env (some k) st⟩
  · intro hempty
    have hr : resolveConfig env (some k) = none := by
      simp [resolveConfig, hempty, alookup]
    unfold getPool
    rw [hr]
  · intro hne hc
    obtain ⟨e, es, hcons⟩ := List.exists_cons_of_ne_nil hne
    have hk2 : alookup k (e :: es) = none := hcons ▸ hk
    have hr : resolveConfig env (some k) = some e.2 := by
      simp [resolveConfig, hcons, hk2]
    cases hl : alookup (poolKeyOf (some k)) st.pools with
    | some pid => exact ⟨pid, by rw [getPool_hit hr hl]⟩
    | none => exact ⟨st.next, by rw [getPool_miss_ok hr hl (hc e.2)]⟩

theorem C1_amended_witness :
    getPool envNone (some "ghost") st0 =
      (.error "No database configuration found.", st0) ∧
    (∃ p, (getPool envOk (some "ghost") st0).1 = .ok p) ∧
    ((getPool envOk (some "ghost") st0).2).status = st0.status :=
  ⟨(C1_amended envNone "ghost" st0 rfl).1 rfl,
   (C1_amended envOk "ghost" st0 rfl).2.1 (by decide) (fun _ => rfl),
   (C1_amended envOk "ghost" st0 rfl).2.2⟩

/-- Claim C2 (confirmed): when an acquire succeeds, a second acquire for
the same key returns the very same cached pool and leaves the state
unchanged; the self-evicting close removes the cache entry before the
driver close runs; and a subsequent acquire (connections succeeding)
returns a pool distinct from the closed one. -/
theorem C2_thm (env : Env) (k : Option String) (st : St) (p : Nat) (st1 : St)
    (hw : wfSt st)
    (hc : ∀ c, env.connect c = .ok ())
    (h : getPool env k st = (.ok p, st1)) :
    getPool env k st1 = (.ok p, st1) ∧
    alookup (poolKeyOf k) (closePool (poolKeyOf k) st1).pools = none ∧
    ∃ p2 st3,
      getPool env k (closePool (poolKeyOf k) st1) = (.ok p2, st3) ∧ p2 ≠ p := by
  obtain ⟨cfg, hr, hcase⟩ := getPool_ok_inv h
  have hl1 : alookup (poolKeyOf k) st1.pools = some p := by
    rcases hcase with ⟨hl, rfl⟩ | ⟨hl, _, rfl, rfl⟩
    · exact hl
    · show alookup (poolKeyOf k) (st.pools ++ [(poolKeyOf k, st.next)]) = _
      rw [alookup_append_of_none hl, alookup_single_self]
  refine ⟨getPool_hit hr hl1, alookup_filter_self _ _, ?_⟩
  have hw1 : wfSt st1 := by
    have hg := @getPool_wf env k st hw
    rw [h] at hg
    exact hg
  have hplt : p < st1.next := by
    obtain ⟨e, he, hev⟩ := alookup_some_ex hl1
    exact hev ▸ hw1 e he
  have hl2 : alookup (poolKeyOf k) (closePool (poolKeyOf k) st1).pools = none :=
    alookup_filter_self _ _
  refine ⟨(closePool (poolKeyOf k) st1).next, _,
    getPool_miss_ok hr hl2 (hc cfg), ?_⟩
  show (closePool (poolKeyOf k) st1).next ≠ p
  exact Nat.ne_of_gt hplt

theorem C2_thm_witness :
    getPool envOk none stA = (.ok 0, stA) ∧
    alookup "default" (closePool "default" stA).pools = none ∧
    ∃ p2 st3,
      getPool envOk none (closePool "default" stA) = (.ok p2, st3) ∧ p2 ≠ 0 :=
  C2_thm envOk none st0 0 stA
    (fun e he => absurd he (List.not_mem_nil e))
    (fun _ => rfl) rfl

/-- Claim C5, as frozen, is false on the code: the query `DROP TABLE x`
is classified unsafe, but submitted together with the malformed dbKey
`bad key` the call returns the dbKey validation failure, not a message
indicating the query was blocked for security (no pool acquisition
happens either way). -/
theorem C5_counterexample :
    isSafeQuery false "DROP TABLE x" = false ∧
    executeSql envOk false "DROP TABLE x" (some "bad key") st0 =
      ((⟨.err (vMsg "dbKey"
          "Database key can only contain alphanumeric characters and underscores"),
        true⟩, false), st0) ∧
    vMsg "dbKey"
        "Database key can only contain alphanumeric characters and underscores"
      ≠ blockedMsg :=
  ⟨by decide, rfl, by decide⟩

/-- Claim C5 (corrected): for every query that passes input validation
and is classified unsafe, `executeSql` returns the structured
blocked-for-security error with `isError` set, without reaching pool
acquisition and leaving the state untouched; an unsafe query that fails
validation instead returns the validation failure, likewise structured
and likewise before any pool acquisition. -/
theorem C5_amended (env : Env) (ro : Bool) (q : String) (k : Option String)
    (st : St) :
    (validateQueryInput q k = .ok () → isSafeQuery ro q = false →
      executeSql env ro q k st = ((⟨.err blockedMsg, true⟩, false), st)) ∧
    (∀ m, validateQueryInput q k = .error m →
      executeSql env ro q k st = ((⟨.err m, true⟩, false), st)) := by
  constructor
  · intro hv hs
    simp [executeSql, hv, hs]
  · intro m hv
    simp [executeSql, hv]

theorem C5_amended_witness :
    executeSql envOk false "DROP TABLE x" none st0 =
      ((⟨.err blockedMsg, true⟩, false), st0) ∧
    executeSql envOk false "SELECT 1" (some "bad key") st0 =
      ((⟨.err (vMsg "dbKey"
          "Database key can only contain alphanumeric characters and underscores"),
        true⟩, false), st0) :=
  ⟨(C5_amended envOk false "DROP TABLE x" none st0).1 rfl (by decide),
   (C5_amended envOk false "SELECT 1" (some "bad key") st0).2 _ rfl⟩

/-- Claim C6, as frozen, is false on the code: with the connection
failing and a cold cache, `listResources` swallows the failure and
returns a successful empty list, and GET /resources replies 200 with
that empty array — the database failure does not surface as an error. -/
theorem C6_counterexample :
    (listResources envConnFail none st0).1 = [] ∧
    (getResourcesHttp envConnFail none st0).1 = (200, .list []) :=
  ⟨rfl, rfl⟩

/-- Claim C6 (corrected): `executeSql`, `getTableSchema` and
`readResource` convert every acquisition or query failure into a
structured error preserving the original message (`readResource` behind
a `Database error: ` prefix) — but `listResources` swallows its
failures and returns the empty list, so GET /resources reports success
with an empty array on a database failure. -/
theorem C6_amended (env : Env) (ro : Bool) (q t u : String)
    (k : Option String) (st : St) :
    (∀ e st2, validateQueryInput q k = .ok () → isSafeQuery ro q = true →
       getPool env k st = (.error e, st2) →
       executeSql env ro q k st = ((⟨.err e, true⟩, true), st2)) ∧
    (∀ pid st2 e, validateTableInput t k = .ok () →
       getPool env k st = (.ok pid, st2) →
       env.runSql pid schemaSqlText [("tableName", t)] = .error e →
       getTableSchema env t k st = (⟨.err e, true⟩, st2)) ∧
    (∀ e st2, uriRegexOk u = true →
       getPool env none st = (.error e, st2) →
       readResource env u none st =
         ((.error ("Database error: " ++ e), []), st2)) ∧
    (∀ e st2, alookup (poolKeyOf none) st.resourceCache = none →
       getPool env none st = (.error e, st2) →
       listResources env none st = ([], st2) ∧
       getResourcesHttp env none st = ((200, .list []), st2)) := by
  refine ⟨?_, ?_, ?_, ?_⟩
  · intro e st2 hv hs hg
    simp [executeSql, hv, hs, hg]
  · intro pid st2 e hv hg hr
    simp [getTableSchema, hv, hg, hr]
  · intro e st2 hu hg
    have hscheme : tokHere "mssql://".data u.data = true := by
      simp only [uriRegexOk, Bool.and_eq_true] at hu
      exact hu.1
    simp [readResource, hu, hscheme, hg]
  · intro e st2 hcache hg
    refine ⟨by simp [listResources, hcache, hg], ?_⟩
    simp [getResourcesHttp, listResources, hcache, hg]

theorem C6_amended_witness :
    executeSql envConnFail false "SELECT 1" none st0 =
      ((⟨.err "Connection error", true⟩, true), ⟨[], 1, [], []⟩) ∧
    getTableSchema envQueryFail "Orders" none st0 =
      (⟨.err "Invalid object name", true⟩, stA) ∧
    readResource envConnFail "mssql://Users/data" none st0 =
      ((.error ("Database error: " ++ "Connection error"), []), ⟨[], 1, [], []⟩) ∧
    listResources envConnFail none st0 = ([], ⟨[], 1, [], []⟩) ∧
    getResourcesHttp envConnFail none st0 =
      ((200, .list []), ⟨[], 1, [], []⟩) := by
  have h1 := (C6_amended envConnFail false "SELECT 1" "Orders"
      "mssql://Users/data" none st0).1 "Connection error" ⟨[], 1, [], []⟩
      rfl (by decide) rfl
  have h2 := (C6_amended envQueryFail false "SELECT 1" "Orders"
      "mssql://Users/data" none st0).2.1 0 stA "Invalid object name"
      rfl rfl rfl
  have h3 := (C6_amended envConnFail false "SELECT 1" "Orders"
      "mssql://Users/data" none st0).2.2.1 "Connection error" ⟨[], 1, [], []⟩
      (by decide) rfl
  have h4 := (C6_amended envConnFail false "SELECT 1" "Orders"
      "mssql://Users/data" none st0).2.2.2 "Connection error" ⟨[], 1, [], []⟩
      rfl rfl
  exact ⟨h1, h2, h3, h4.1, h4.2⟩

/-- Claim C9 (confirmed): when the parameterised column-metadata query
succeeds with zero rows, `getTableSchema` returns the structured
not-found error (one message covering both an absent table and a table
without columns) with `isError` set, instead of a successful empty
column list. -/
theorem C9_thm (env : Env) (t : String) (k : Option String) (st : St)
    (pid : Nat) (st2 : St) (r : QueryRes)
    (hv : validateTableInput t k = .ok ())
    (hg : getPool env k st = (.ok pid, st2))
    (hr : env.runSql pid schemaSqlText [("tableName", t)] = .ok r)
    (hrs : r.recordset = []) :
    getTableSchema env t k st = (⟨.err (notFoundMsg t), true⟩, st2) := by
  simp [getTableSchema, hv, hg, hr, hrs]

theorem C9_witness :
    getTableSchema envEmptyRecordset "Orders" none st0 =
      (⟨.err (notFoundMsg "Orders"), true⟩, stA) :=
  C9_thm envEmptyRecordset "Orders" none st0 0 stA ⟨[0], []⟩ rfl rfl rfl rfl

/-! ### listDatabases output strings -/

lemma listDbStrings_sub (configs : List (String × DbConfig))
    (status : List StatusEntry) :
    ∀ s ∈ listDbStrings
      { availableDatabases := configs.map (fun e => e.1)
      , configurations := configs.map (fun e => (e.1, sanitizeConfig e.2))
      , connectionStatus := status
      , count := configs.length
      , defaultDatabase := (configs.map (fun e => e.1)).head? },
      s ∈ configPublicStrings configs ++ statusStrings status := by
  intro s hs
  simp only [listDbStrings, List.mem_append] at hs
  rcases hs with ((h1 | h2) | h3) | h4
  · obtain ⟨e, he, rfl⟩ := List.mem_map.mp h1
    exact List.mem_append_left _
      (List.mem_flatMap.mpr ⟨e, he, by simp [configPublicStrings]⟩)
  · obtain ⟨p, hp, hsp⟩ := List.mem_flatMap.mp h2
    obtain ⟨e, he, rfl⟩ := List.mem_map.mp hp
    refine List.mem_append_left _ (List.mem_flatMap.mpr ⟨e, he, ?_⟩)
    simpa [sanitizeConfig] using hsp
  · exact List.mem_append_right _ h3
  · rcases hh : (configs.map (fun e => e.1)).head? with _ | d
    · rw [hh] at h4; simp at h4
    · rw [hh] at h4
      simp only [List.mem_singleton] at h4
      subst h4
      have hd : s ∈ configs.map (fun e => e.1) :=
        List.mem_of_mem_head? (by rw [hh]; rfl)
      obtain ⟨e, he, rfl⟩ := List.mem_map.mp hd
      exact List.mem_append_left _
        (List.mem_flatMap.mpr ⟨e, he, by simp [configPublicStrings]⟩)

/-- Claim C7 (confirmed): `listDatabases` always succeeds, reports the
configured keys in insertion order with the first as default and the
key count, and every string of its output is drawn from the non-secret
configuration fields and the status entries — any password value
distinct from those public strings never appears in the output. -/
theorem C7_thm (configs : List (String × DbConfig)) (status : List StatusEntry) :
    ∃ b, listDatabases configs status = ⟨.ok b, false⟩ ∧
      b.availableDatabases = configs.map (fun e => e.1) ∧
      b.defaultDatabase = (configs.map (fun e => e.1)).head? ∧
      b.count = configs.length ∧
      (∀ s ∈ listDbStrings b,
        s ∈ configPublicStrings configs ++ statusStrings status) ∧
      (∀ pwd, pwd ∉ configPublicStrings configs ++ statusStrings status →
        pwd ∉ listDbStrings b) := by
  refine ⟨_, rfl, rfl, rfl, rfl, listDbStrings_sub configs status, ?_⟩
  intro pwd hnp hmem
  exact hnp (listDbStrings_sub configs status pwd hmem)

theorem C7_witness :
    ∃ b, listDatabases cfgs2 sts2 = ⟨.ok b, false⟩ ∧
      b.availableDatabases = ["maindb", "reportingdb"] ∧
      b.defaultDatabase = some "maindb" ∧
      b.count = 2 ∧
      "hunter2" ∉ listDbStrings b ∧
      "s3cret" ∉ listDbStrings b := by
  obtain ⟨b, hb, h1, h2, h3, _, h5⟩ := C7_thm cfgs2 sts2
  refine ⟨b, hb, ?_, ?_, ?_, ?_, ?_⟩
  · rw [h1]; rfl
  · rw [h2]; rfl
  · rw [h3]; rfl
  · exact h5 "hunter2" (by decide)
  · exact h5 "s3cret" (by decide)

/-! ### CSV round-trip -/

lemma unquote_escape (l : List Char) :
    unquoteCsv (escQuotes l ++ ['"']) = some l := by
  induction l with
  | nil => rfl
  | cons c t ih =>
      by_cases hc : c = '"'
      · subst hc
        simp only [escQuotes, List.flatMap_cons, if_pos rfl, List.cons_append,
          List.append_assoc] at ih ⊢
        simp [unquoteCsv, ih]
      · simp only [escQuotes, List.flatMap_cons, if_neg hc, List.cons_append,
          List.singleton_append] at ih ⊢
        rw [unquoteCsv.eq_def]
        simp [hc, ih]

/-- Claim C8 (confirmed): a string field needing quoting serialises as a
single quoted field with internal quotes doubled, and RFC4180 parsing of
that field reproduces the original string exactly; null and undefined
cells render as the empty field. -/
theorem C8_thm (s : String) (h : needsQuote s = true) :
    csvField (.str s) = "\"" ++ String.mk (escQuotes s.data) ++ "\"" ∧
    rfc4180ParseField (csvField (.str s)) = some s ∧
    csvCell (some .null) = "" ∧ csvCell none = "" := by
  obtain ⟨l⟩ := s
  have h1 : csvField (.str (String.mk l)) =
      "\"" ++ String.mk (escQuotes l) ++ "\"" := by
    simp [csvField, h]
  refine ⟨h1, ?_, rfl, rfl⟩
  rw [h1]
  have hdata : ("\"" ++ String.mk (escQuotes l) ++ "\"").data
      = '"' :: (escQuotes l ++ ['"']) := by
    simp [String.data_append]
  simp [rfc4180ParseField, hdata, unquote_escape]

theorem C8_witness :
    needsQuote "a,\"b\"\nc" = true ∧
    csvField (.str "a,\"b\"\nc") =
      "\"" ++ String.mk (escQuotes "a,\"b\"\nc".data) ++ "\"" ∧
    rfc4180ParseField (csvField (.str "a,\"b\"\nc")) = some "a,\"b\"\nc" :=
  ⟨by decide, (C8_thm _ (by decide)).1, (C8_thm _ (by decide)).2.1⟩

/-! ### Resource-URI decomposition -/

lemma dropWhile_of_drop_len {p : Char → Bool} (r : List Char) :
    r.drop (r.takeWhile p).length = r.dropWhile p := by
  induction r with
  | nil => rfl
  | cons a l ih =>
      by_cases hp : p a
      · simp [List.takeWhile_cons, List.dropWhile_cons, hp, List.length_cons,
          List.drop_succ_cons, ih]
      · simp [List.takeWhile_cons, List.dropWhile_cons, hp]

lemma tokHere_eq_append {tok : List Char} :
    ∀ {l : List Char}, tokHere tok l = true → l = tok ++ l.drop tok.length := by
  induction tok with
  | nil => intro l _; rfl
  | cons a as ih =>
      intro l h
      cases l with
      | nil => simp [tokHere] at h
      | cons b bs =>
          simp only [tokHere, Bool.and_eq_true, decide_eq_true_eq] at h
          obtain ⟨hab, h2⟩ := h
          subst hab
          simp only [List.cons_append, List.length_cons, List.drop_succ_cons]
          exact congrArg (a :: ·) (ih h2)

lemma takeWhile_word_slash {mid rest : List Char}
    (hm : ∀ c ∈ mid, isWordChar c = true) :
    (mid ++ '/' :: rest).takeWhile (fun c => !(c = '/')) = mid := by
  induction mid with
  | nil => simp [List.takeWhile_cons]
  | cons a as ih =>
      have ha := hm a (List.mem_cons_self ..)
      have hne2 : a ≠ '/' := fun hEq => absurd (hEq ▸ ha) (by decide)
      simp [List.takeWhile_cons, hne2,
        ih (fun c hc => hm c (List.mem_cons_of_mem _ hc))]

lemma wordChar_not_ws {c : Char} (h : isWordChar c = true) : isWsChar c = false := by
  cases hws : isWsChar c
  · rfl
  · exfalso
    simp only [isWsChar, Bool.or_eq_true, decide_eq_true_eq] at hws
    rcases hws with ((((rfl | rfl) | rfl) | rfl) | rfl) | rfl <;>
      exact absurd h (by decide)

lemma uri_decomp {u : String} (h : uriRegexOk u = true) :
    ∃ mid, u.data = "mssql://".data ++ (mid ++ "/data".data) ∧ mid ≠ [] ∧
      (∀ c ∈ mid, isWordChar c = true) ∧ extractTable u = String.mk mid := by
  have h' := h
  simp only [uriRegexOk, Bool.and_eq_true, decide_eq_true_eq] at h'
  obtain ⟨h1, h2, h3⟩ := h'
  obtain ⟨M, hM⟩ : ∃ M, (u.data.drop 8).takeWhile isWordChar = M := ⟨_, rfl⟩
  rw [hM] at h2 h3
  have hword : ∀ c ∈ M, isWordChar c = true := by
    intro c hc
    rw [← hM] at hc
    exact List.mem_takeWhile_imp hc
  have hdrop : (u.data.drop 8).dropWhile isWordChar = "/data".data := by
    have hl := dropWhile_of_drop_len (p := isWordChar) (u.data.drop 8)
    rw [hM] at hl
    rw [← hl]
    exact h3
  have hd8 : u.data.drop 8 = M ++ "/data".data := by
    conv_lhs => rw [← List.takeWhile_append_dropWhile (p := isWordChar)
      (l := u.data.drop 8)]
    rw [hM, hdrop]
  refine ⟨M, ?_, ?_, hword, ?_⟩
  · calc u.data = "mssql://".data ++ u.data.drop 8 := by
          simpa using tokHere_eq_append h1
      _ = "mssql://".data ++ (M ++ "/data".data) := by rw [hd8]
  · intro hm
    rw [hm] at h2
    simp at h2
  · show String.mk ((u.data.drop 8).takeWhile (fun c => !(c = '/'))) = _
    rw [hd8]
    rw [show ("/data".data : List Char) = '/' :: "data".data from rfl]
    rw [takeWhile_word_slash hword]

/-- Claim C10 (confirmed): whenever `readResource` reaches SQL
execution, the only statement handed to the driver is exactly
`SELECT TOP 100 * FROM [t]` with `t` the table segment of the validated
URI; that segment is non-empty and made of word characters only — in
particular free of brackets, quotes and whitespace — so no other
caller-controlled text can enter the SQL string. -/
theorem C10_thm (env : Env) (u : String) (k : Option String) (st : St)
    (h : uriRegexOk u = true) :
    ((readResource env u k st).1.2 = [] ∨
     (readResource env u k st).1.2 =
       ["SELECT TOP 100 * FROM [" ++ extractTable u ++ "]"]) ∧
    (extractTable u).data ≠ [] ∧
    (∀ c ∈ (extractTable u).data, isWordChar c = true ∧
      ¬(c = '[') ∧ ¬(c = ']') ∧ ¬(c = '"') ∧ ¬(c = Char.ofNat 39) ∧
      isWsChar c = false) := by
  obtain ⟨mid, hdecomp, hne, hword, hext⟩ := uri_decomp h
  have hscheme : tokHere "mssql://".data u.data = true := by
    have h' := h
    simp only [uriRegexOk, Bool.and_eq_true] at h'
    exact h'.1
  refine ⟨?_, ?_, ?_⟩
  · rcases hgp : getPool env k st with ⟨res, st2⟩
    cases k with
    | none =>
      cases res with
      | error e => left; simp [readResource, h, hscheme, hgp]
      | ok pid =>
        cases hr : env.runSql pid
            ("SELECT TOP 100 * FROM [" ++ extractTable u ++ "]") [] with
        | error e => right; simp [readResource, h, hscheme, hgp, hr]
        | ok r => right; simp [readResource, h, hscheme, hgp, hr]
    | some key =>
      cases hv : validateDbKeyOnly key with
      | error m => left; simp [readResource, h, hscheme, hv]
      | ok u2 =>
        cases res with
        | error e => left; simp [readResource, h, hscheme, hv, hgp]
        | ok pid =>
          cases hr : env.runSql pid
              ("SELECT TOP 100 * FROM [" ++ extractTable u ++ "]") [] with
          | error e => right; simp [readResource, h, hscheme, hv, hgp, hr]
          | ok r => right; simp [readResource, h, hscheme, hv, hgp, hr]
  · rw [hext]
    intro hm
    exact hne hm
  · intro c hc
    rw [hext] at hc
    have hw := hword c hc
    exact ⟨hw, fun hEq => absurd (hEq ▸ hw) (by decide),
      fun hEq => absurd (hEq ▸ hw) (by decide),
      fun hEq => absurd (hEq ▸ hw) (by decide),
      fun hEq => absurd (hEq ▸ hw) (by decide),
      wordChar_not_ws hw⟩

theorem C10_witness :
    ((readResource envOk "mssql://Users/data" none st0).1.2 = [] ∨
     (readResource envOk "mssql://Users/data" none st0).1.2 =
       ["SELECT TOP 100 * FROM [" ++ extractTable "mssql://Users/data" ++ "]"]) ∧
    (extractTable "mssql://Users/data").data ≠ [] ∧
    (∀ c ∈ (extractTable "mssql://Users/data").data, isWordChar c = true ∧
      ¬(c = '[') ∧ ¬(c = ']') ∧ ¬(c = '"') ∧ ¬(c = Char.ofNat 39) ∧
      isWsChar c = false) :=
  C10_thm envOk "mssql://Users/data" none st0 (by decide)

end MssqlMcp
